import Mathlib

/-!
Shallow embedding of the multiplayer round/session engine of the Mini-games
repository: the scoreboard store (`utils/scoreboard.py`) and the game-logic
state of the three game modules (`games/number_rush.py`, `games/color_blast.py`,
`games/memory_match.py`).  Widget construction, canvas drawing, fonts, sounds
and other presentation-only effects are outside the embedded state; every
field and branch below mirrors a line of the Python source.  Wall-clock
times (Python floats) are embedded as exact rationals, machine integers as
unbounded `Int`/`Nat` (Python ints are unbounded).
-/

/-! ## Leaderboard store: `utils/scoreboard.py` -/

/-- The `PlayerScore` TypedDict. -/
structure PlayerScore where
  name : String
  score : Int
  level : Int
  timestamp : String
  game : String
deriving DecidableEq

/-- The in-memory mapping `self.scores : dict[str, list[PlayerScore]]`,
embedded as an insertion-ordered association list (Python dicts preserve
insertion order and the code never deletes keys). -/
abbrev Scores := List (String × List PlayerScore)

/-- The dict literal assigned in `ScoreboardManager.__init__`. -/
def initialScores : Scores :=
  [("Memory Match", []), ("Number Rush", []), ("Color Blast", [])]

/-- Dict lookup `self.scores.get(game)` (`none` when the key is absent). -/
def scoresFind (s : Scores) (g : String) : Option (List PlayerScore) :=
  (s.find? (fun p => p.1 == g)).map (fun p => p.2)

/-- The membership test `game in self.scores`. -/
def scoresMem (s : Scores) (g : String) : Bool :=
  (scoresFind s g).isSome

/-- Dict assignment `self.scores[game] = l` for an existing key `game`. -/
def scoresSet (s : Scores) (g : String) (l : List PlayerScore) : Scores :=
  s.map (fun p => if p.1 == g then (p.1, l) else p)

/-- Lexicographic comparison of the Python sort keys
`(x['score'], x['level'])` (Python compares tuples lexicographically). -/
def scoreKeyLE (a b : PlayerScore) : Bool :=
  a.score < b.score || (a.score == b.score && a.level ≤ b.level)

/-- `x` may be placed before `y` by the descending sort: key of `y` ≤ key of `x`. -/
def scoreGE (a b : PlayerScore) : Bool := scoreKeyLE b a

/-- `self.scores[game].sort(key=lambda x: (x['score'], x['level']), reverse=True)`:
Python `list.sort` is a stable sort, and with `reverse=True` it orders by
descending key while keeping equal-key entries in their original order;
`List.mergeSort` with the non-strict relation `scoreGE` is exactly that
stable descending sort. -/
def sortScores (l : List PlayerScore) : List PlayerScore :=
  l.mergeSort scoreGE

/-- Result of `ScoreboardManager.add_score`: the updated in-memory mapping,
the returned boolean, and the full-store file write performed by
`save_scores` (`none` when `save_scores` is never reached). -/
structure AddResult where
  scores : Scores
  ok : Bool
  written : Option Scores
deriving DecidableEq

/-- `ScoreboardManager.add_score(game, player_name, score, level)`; `now` is
the formatted `datetime.now()` timestamp string. -/
def add_score (s : Scores) (game player_name : String) (score level : Int)
    (now : String) : AddResult :=
  if scoresMem s game then
    let new_score : PlayerScore :=
      { name := player_name, score := score, level := level,
        timestamp := now, game := game }
    let appended := (scoresFind s game).getD [] ++ [new_score]
    let s' := scoresSet s game ((sortScores appended).take 10)
    { scores := s', ok := true, written := some s' }
  else
    { scores := s, ok := false, written := none }

/-- Python list slice `l[:limit]` for an arbitrary `int` limit
(non-negative limits keep the first `limit` elements, negative limits drop
the last `-limit` elements). -/
def pySlice (l : List PlayerScore) (limit : Int) : List PlayerScore :=
  if 0 ≤ limit then l.take limit.toNat else l.take (l.length - (-limit).toNat)

/-- `ScoreboardManager.get_top_scores(game, limit)`:
`self.scores.get(game, [])[:limit]`.  The Python body contains no mutating
statement, so the store argument is returned nowhere: the function is pure. -/
def get_top_scores (s : Scores) (game : String) (limit : Int) : List PlayerScore :=
  pySlice ((scoresFind s game).getD []) limit

/-- Outcome of reading `scores.json` in `load_scores`:
the file may be absent (`Path.exists()` false), unreadable (`open` raised),
corrupt (`json.load` raised), or parse to a value `d`. -/
inductive ScoresFile where
  | missing
  | unreadable
  | corrupt
  | valid (d : Scores)

/-- `ScoreboardManager.load_scores`: on `missing` the body is skipped, on
`unreadable`/`corrupt` the raised exception is caught by the `except` branch
(which only prints), so `self.scores` keeps its current value; on success
`self.scores` is replaced by the parsed data.  Total: no outcome escapes. -/
def load_scores (f : ScoresFile) (current : Scores) : Scores :=
  match f with
  | .missing => current
  | .unreadable => current
  | .corrupt => current
  | .valid d => d

/-- `ScoreboardManager.__init__`: assign the three-key empty dict, then call
`load_scores`. -/
def scoreboard_init (f : ScoresFile) : Scores :=
  load_scores f initialScores

/-- A game's stored entry list is ordered by `(score desc, level desc)`. -/
def entriesSorted (l : List PlayerScore) : Prop :=
  l.Pairwise (fun a b => scoreGE a b = true)

instance entriesSorted_decidable (l : List PlayerScore) : Decidable (entriesSorted l) :=
  inferInstanceAs (Decidable (l.Pairwise _))

/-- The store invariant of the spec: every stored list is sorted by
`(score desc, level desc)` and holds at most 10 entries. -/
def ScoresInv (s : Scores) : Prop :=
  ∀ p ∈ s, entriesSorted p.2 ∧ p.2.length ≤ 10

instance ScoresInv_decidable (s : Scores) : Decidable (ScoresInv s) :=
  List.decidableBAll _ s

/-- One `recordScore` call: the arguments of `add_score` plus the timestamp. -/
structure RecordCall where
  game : String
  name : String
  score : Int
  level : Int
  now : String

/-- The store reached from a fresh `ScoreboardManager` (empty lists) by a
sequence of `add_score` calls. -/
def applyCalls (calls : List RecordCall) : Scores :=
  calls.foldl (fun st c => (add_score st c.game c.name c.score c.level c.now).scores)
    initialScores

/-- An `add_score` call emitted by a game's end-of-session loop. -/
structure ScoreRec where
  game : String
  name : String
  score : Int
  level : Int
deriving DecidableEq

/-! ## Number Rush: `games/number_rush.py` -/

namespace NumberRush

/-- The `ButtonData` entry for one number button (the `tk.Label` widget
itself is presentation). -/
structure ButtonData where
  number : Nat
  clicked : Bool
deriving DecidableEq

/-- The `PlayerData` TypedDict of `number_rush.py`. -/
structure PlayerData where
  name : String
  score : Int
  time : ℚ
  completed : Bool
deriving DecidableEq

/-- The game-logic attributes of `NumberRushGame` (UI handles omitted).
`timer_id` is the pending `after` handle of `update_timer`. -/
structure State where
  buttons : List ButtonData
  current_number : Nat
  start_time : Option ℚ
  game_active : Bool
  timer_id : Option Nat
  num_players : Nat
  current_player : Nat
  players : List PlayerData
  current_level : Nat
  total_numbers : Nat
deriving DecidableEq

/-- Python `int()` applied to a (here: exact) quotient truncates toward
zero. -/
def pyInt (q : ℚ) : Int :=
  if 0 ≤ q then ⌊q⌋ else ⌈q⌉

/-- The end-of-game loop
`for player in self.players: if player['completed']: scoreboard.add_score(...)`. -/
def records : List PlayerData → Nat → List ScoreRec
  | [], _ => []
  | p :: ps, lvl =>
      (if p.completed then [⟨"Number Rush", p.name, p.score, (lvl : Int)⟩] else [])
        ++ records ps lvl

/-- `NumberRushGame.end_game` (the result dialog and scoreboard dialog are
presentation): deactivate, cancel the pending timer, and emit one
`add_score` call per completed player. -/
def end_game (s : State) : State × List ScoreRec :=
  ({ s with game_active := false, timer_id := none },
   records s.players s.current_level)

/-- `NumberRushGame.round_complete`, called with the current wall-clock time
`now` (`time.time()`).  Returns `none` where Python raises: indexing
`self.players[self.current_player]` out of range, or `elapsed == 0` making
`10000 / elapsed` a `ZeroDivisionError`.  The second component collects the
`add_score` calls of a triggered `end_game`, the third is true when
`end_game` ran (the session is over). -/
def round_complete (now : ℚ) (s : State) : Option (State × List ScoreRec × Bool) :=
  let s := { s with game_active := false, timer_id := none }
  let scored : Option State :=
    match s.start_time with
    | none => some s
    | some t =>
        let elapsed := now - t
        if elapsed = 0 then none
        else
          match s.players[s.current_player]? with
          | none => none
          | some player =>
              let player := { player with
                time := elapsed, completed := true,
                score := pyInt (10000 / elapsed) * (s.current_level : Int) }
              some { s with players := s.players.set s.current_player player }
  match scored with
  | none => none
  | some s =>
      let s := { s with current_player := s.current_player + 1 }
      if s.current_player < s.num_players then some (s, [], false)
      else
        let r := end_game s
        some (r.1, r.2, true)

/-- The loop in `number_clicked` that marks the first button showing `num`
as clicked (`break` after the first hit). -/
def markClicked : List ButtonData → Nat → List ButtonData
  | [], _ => []
  | b :: bs, num =>
      if b.number = num then { b with clicked := true } :: bs
      else b :: markClicked bs num

/-- `NumberRushGame.number_clicked(num)` at wall-clock time `now`.  Inactive
rounds return immediately; a correct click marks the button and advances
`current_number`, completing the round past the last number; a wrong click
only plays a sound and flashes the button (no game-logic state changes). -/
def number_clicked (now : ℚ) (num : Nat) (s : State) :
    Option (State × List ScoreRec × Bool) :=
  if s.game_active = false then some (s, [], false)
  else if num = s.current_number then
    let s := { s with buttons := markClicked s.buttons num }
    let s := { s with current_number := s.current_number + 1 }
    if s.total_numbers < s.current_number then round_complete now s
    else some (s, [], false)
  else some (s, [], false)

/-- `NumberRushGame.update_timer`: while the game is active (and a start
time exists) it refreshes the timer label and re-schedules itself (`fresh`
is the new `after` handle); otherwise it does nothing. -/
def update_timer (fresh : Nat) (s : State) : State :=
  if s.game_active && s.start_time.isSome then { s with timer_id := some fresh }
  else s

end NumberRush

/-! ## Color Blast: `games/color_blast.py` -/

namespace ColorBlast

/-- The `PlayerData` TypedDict of `color_blast.py`. -/
structure PlayerData where
  name : String
  score : Int
  completed : Bool
deriving DecidableEq

/-- The game-logic attributes of `ColorBlastGame` (UI handles and the
colour table omitted).  `score` is the running correct-answer count of the
current round, `correct_answer` the index of the correct option button. -/
structure State where
  score : Int
  time_left : Int
  game_active : Bool
  correct_answer : Nat
  timer_id : Option Nat
  num_players : Nat
  current_player : Nat
  players : List PlayerData
  current_level : Nat
  target_score : Int
deriving DecidableEq

/-- The end-of-game loop
`for player in self.players: if player['completed']: scoreboard.add_score(...)`. -/
def records : List PlayerData → Nat → List ScoreRec
  | [], _ => []
  | p :: ps, lvl =>
      (if p.completed then [⟨"Color Blast", p.name, p.score, (lvl : Int)⟩] else [])
        ++ records ps lvl

/-- `ColorBlastGame.end_game`: deactivate, cancel the pending countdown,
emit one `add_score` call per completed player. -/
def end_game (s : State) : State × List ScoreRec :=
  ({ s with game_active := false, timer_id := none },
   records s.players s.current_level)

/-- `ColorBlastGame.check_answer(idx)`: a no-op while the round is
inactive; a correct answer increments the round score; a wrong answer only
flashes the buttons and schedules the next question (presentation). -/
def check_answer (idx : Nat) (s : State) : State :=
  if s.game_active = false then s
  else if idx = s.correct_answer then { s with score := s.score + 1 }
  else s

/-- A dummy player used to express Python indexing after the explicit range
guard of `round_over` (the guard makes the default unreachable). -/
def dummyPlayer : PlayerData := ⟨"", 0, false⟩

/-- `ColorBlastGame.round_over`: deactivate, then either finish the session
immediately when `current_player` is already out of range, or store the
round score into the current player's slot (`score * level * 10`,
`completed = True`), advance the turn, and finish when every player has
played.  Second/third components as in `NumberRush.round_complete`. -/
def round_over (s : State) : State × List ScoreRec × Bool :=
  let s := { s with game_active := false }
  if s.players.length ≤ s.current_player then
    let r := end_game s
    (r.1, r.2, true)
  else
    let player := s.players.getD s.current_player dummyPlayer
    let player := { player with
      score := s.score * (s.current_level : Int) * 10, completed := true }
    let s := { s with players := s.players.set s.current_player player }
    let s := { s with current_player := s.current_player + 1 }
    if s.current_player < s.num_players then (s, [], false)
    else
      let r := end_game s
      (r.1, r.2, true)

/-- `ColorBlastGame.countdown`: nothing while inactive; while time remains
decrement it and re-schedule (`fresh` is the new `after` handle); at zero
run `round_over`. -/
def countdown (fresh : Nat) (s : State) : State × List ScoreRec × Bool :=
  if s.game_active = false then (s, [], false)
  else if 0 < s.time_left then
    ({ s with time_left := s.time_left - 1, timer_id := some fresh }, [], false)
  else round_over s

end ColorBlast

/-! ## Memory Match: `games/memory_match.py` -/

namespace MemoryMatch

/-- The `CardData` entry for one card (its `tk.Canvas` is presentation). -/
structure CardData where
  symbol : String
  flipped : Bool
  matched : Bool
deriving DecidableEq

/-- The `PlayerData` TypedDict of `memory_match.py` — note: no `completed`
field exists in this game. -/
structure PlayerData where
  name : String
  score : Int
  «matches» : Nat
  streak : Nat
deriving DecidableEq

/-- The game-logic attributes of `MemoryMatchGame` (UI handles omitted).
`check_id` is the `after` handle of the last scheduled `check_match`. -/
structure State where
  cards : List CardData
  flipped : List Nat
  matched : List Nat
  moves : Nat
  check_id : Option Nat
  num_players : Nat
  current_player : Nat
  players : List PlayerData
  current_level : Nat
deriving DecidableEq

/-- `MemoryMatchGame.check_match`.  A flipped-pair count other than two
returns immediately; then the two flipped cards and the current player are
read by Python indexing (`none` where that raises).  A symbol match marks
both cards, records them, and awards the acting player
`10 * level * (1 + (streak + 1) // 3)` points with the streak incremented
first; a mismatch resets the acting player's streak and, with more than one
player, passes the turn to `(current_player + 1) % num_players`.  Either
way `self.flipped` is cleared.  (Canvas redraws and the scheduled
`level_complete`/`flip_back` presentation callbacks are outside this
state.) -/
def check_match (s : State) : Option State :=
  match s.flipped with
  | [idx1, idx2] =>
      match s.cards[idx1]?, s.cards[idx2]? with
      | some card1, some card2 =>
          if card1.symbol == card2.symbol then
            let cards := (s.cards.set idx1 { card1 with matched := true }).set idx2
              { card2 with matched := true }
            let matchedList := s.matched ++ [idx1, idx2]
            match s.players[s.current_player]? with
            | none => none
            | some player =>
                let player := { player with
                  «matches» := player.«matches» + 1, streak := player.streak + 1 }
                let base_score := 10 * s.current_level
                let streak_multiplier := 1 + player.streak / 3
                let player := { player with
                  score := player.score + ((base_score * streak_multiplier : Nat) : Int) }
                some { s with
                  cards := cards, matched := matchedList,
                  players := s.players.set s.current_player player, flipped := [] }
          else
            match s.players[s.current_player]? with
            | none => none
            | some player =>
                let players := s.players.set s.current_player { player with streak := 0 }
                let current_player :=
                  if 1 < s.num_players then (s.current_player + 1) % s.num_players
                  else s.current_player
                some { s with
                  players := players, current_player := current_player, flipped := [] }
      | _, _ => none
  | _ => some s

/-- `MemoryMatchGame.flip_card(idx)`: ignore out-of-range indices, cards
already flipped or matched, and states with two cards already up; otherwise
flip the card and, when it is the second one, count the move and schedule a
`check_match` callback (`fresh` is its `after` handle; the returned flag
says whether one was scheduled). -/
def flip_card (idx : Nat) (fresh : Nat) (s : State) : State × Bool :=
  match s.cards[idx]? with
  | none => (s, false)
  | some card =>
      if card.flipped || card.matched || 2 ≤ s.flipped.length then (s, false)
      else
        let s := { s with
          cards := s.cards.set idx { card with flipped := true },
          flipped := s.flipped ++ [idx] }
        if s.flipped.length = 2 then
          ({ s with moves := s.moves + 1, check_id := some fresh }, true)
        else (s, false)

/-- `MemoryMatchGame.start_level` (grid construction is presentation; the
shuffled symbol list it deals onto the cards is passed in as `syms`):
fresh face-down cards, cleared flip/match/move state, per-player counters
reset, first player up.  The pending `check_id` callback is NOT cancelled
here — only `back_to_menu` and `destroy` cancel it. -/
def start_level (syms : List String) (s : State) : State :=
  { s with
    cards := syms.map (fun sy => { symbol := sy, flipped := false, matched := false }),
    flipped := [], matched := [], moves := 0,
    players := s.players.map (fun p => { p with «matches» := 0, streak := 0 }),
    current_player := 0 }

/-- The end-of-game loop of `save_results`:
`for player in self.players: scoreboard.add_score('Memory Match', ...)` —
unconditionally, one call per rostered player. -/
def save_results_records : List PlayerData → Nat → List ScoreRec
  | [], _ => []
  | p :: ps, lvl => ⟨"Memory Match", p.name, p.score, (lvl : Int)⟩ :: save_results_records ps lvl

/-- The Tk event loop as far as Memory Match uses it: the game state plus
the multiset of still-pending `after` handles of scheduled `check_match`
callbacks and a fresh-handle counter. -/
structure QState where
  game : State
  pending : List Nat
  next_id : Nat
deriving DecidableEq

/-- A click on card `idx`, allocating a fresh handle when a check is
scheduled. -/
def q_flip_card (idx : Nat) (q : QState) : QState :=
  let r := flip_card idx q.next_id q.game
  if r.2 then
    { game := r.1, pending := q.pending ++ [q.next_id], next_id := q.next_id + 1 }
  else { q with game := r.1 }

/-- A click on the Restart button (`command=self.start_level`): the round
is torn down and rebuilt, but no pending callback is cancelled. -/
def q_start_level (syms : List String) (q : QState) : QState :=
  { q with game := start_level syms q.game }

/-- The event loop delivers the `after` callback with handle `handle`: a
cancelled (or never scheduled) handle never fires; a pending one fires
`check_match` on the current game state. -/
def q_fire (handle : Nat) (q : QState) : Option QState :=
  if handle ∈ q.pending then
    match check_match q.game with
    | none => none
    | some g => some { q with game := g, pending := q.pending.erase handle }
  else some q

end MemoryMatch

/-! ## Concrete states used by witnesses and counterexamples -/

/-- A concrete, sorted, small store used to instantiate the `get_top_scores`
claims. -/
def storeW : Scores :=
  [("Memory Match", []),
   ("Number Rush",
     [⟨"Ada", 500, 3, "t1", "Number Rush"⟩, ⟨"Bob", 400, 2, "t2", "Number Rush"⟩]),
   ("Color Blast", [])]

/-- A concrete `recordScore` call. -/
def callW : RecordCall := ⟨"Number Rush", "Ada", 500, 3, "t"⟩

/-- A placeholder player for stating `List.getD` reads of Number Rush
rosters (never selected in the witnesses below). -/
def nrDummy : NumberRush.PlayerData := ⟨"", 0, 0, false⟩

/-- A single-player Number Rush round at level 3 that has just clicked the
last of its 15 numbers, with the clock started at time 0. -/
def nrW2 : NumberRush.State :=
  { buttons := [], current_number := 16, start_time := some 0,
    game_active := true, timer_id := some 7, num_players := 1,
    current_player := 0, players := [⟨"P", 0, 0, false⟩],
    current_level := 3, total_numbers := 15 }

/-- A two-player Number Rush state whose clock never started (so
`round_complete` only advances the turn). -/
def nrW4 : NumberRush.State :=
  { buttons := [], current_number := 16, start_time := none,
    game_active := true, timer_id := none, num_players := 2,
    current_player := 0, players := [⟨"P1", 0, 0, false⟩, ⟨"P2", 0, 0, false⟩],
    current_level := 1, total_numbers := 15 }

/-- An inactive Number Rush round (between turns). -/
def nrW6 : NumberRush.State :=
  { buttons := [⟨1, false⟩, ⟨2, false⟩], current_number := 1, start_time := none,
    game_active := false, timer_id := none, num_players := 1,
    current_player := 0, players := [⟨"P", 0, 0, false⟩],
    current_level := 1, total_numbers := 2 }

/-- An inactive Color Blast round (between turns). -/
def cbW6 : ColorBlast.State :=
  { score := 4, time_left := 0, game_active := false, correct_answer := 1,
    timer_id := none, num_players := 1, current_player := 0,
    players := [⟨"P", 0, false⟩], current_level := 1, target_score := 10 }

/-- A placeholder player for stating `List.getD` reads of Memory Match
rosters (never selected in the witnesses below). -/
def mmDummy : MemoryMatch.PlayerData := ⟨"", 0, 0, 0⟩

/-- A level-2 Memory Match state in which player `A` (on a streak of 3)
has just flipped a matching pair. -/
def mmW3 : MemoryMatch.State :=
  { cards := [⟨"X", true, false⟩, ⟨"X", true, false⟩], flipped := [0, 1],
    matched := [], moves := 1, check_id := some 0, num_players := 1,
    current_player := 0, players := [⟨"A", 100, 5, 3⟩], current_level := 2 }

/-- A two-player Memory Match state in which the second (last) player has
just flipped a mismatching pair. -/
def mmC4 : MemoryMatch.State :=
  { cards := [⟨"X", true, false⟩, ⟨"Y", true, false⟩], flipped := [0, 1],
    matched := [], moves := 1, check_id := some 0, num_players := 2,
    current_player := 1, players := [⟨"A", 0, 0, 0⟩, ⟨"B", 0, 0, 0⟩],
    current_level := 1 }

/-- A one-player Memory Match roster whose player never matched a single
pair (no notion of a `completed` flag exists for this game). -/
def mmRosterC5 : List MemoryMatch.PlayerData := [⟨"Bob", 0, 0, 0⟩]

/-- A fresh one-player Memory Match round over a two-card deck, with the
event loop empty. -/
def mmQ0 : MemoryMatch.QState :=
  { game := { cards := [⟨"A", false, false⟩, ⟨"A", false, false⟩], flipped := [],
              matched := [], moves := 0, check_id := none, num_players := 1,
              current_player := 0, players := [⟨"Alice", 0, 0, 0⟩],
              current_level := 1 },
    pending := [], next_id := 0 }

/-- Both cards of the first round are flipped: a `check_match` callback
(handle 0) is now scheduled, due in 600 ms. -/
def mmQ2 : MemoryMatch.QState :=
  MemoryMatch.q_flip_card 1 (MemoryMatch.q_flip_card 0 mmQ0)

/-- The Restart button is clicked inside that 600 ms window: the first
round is torn down and a new deck dealt, with callback 0 still pending. -/
def mmQ3 : MemoryMatch.QState :=
  MemoryMatch.q_start_level ["B", "B"] mmQ2

/-- The player quickly flips two cards of the new round (scheduling the new
round's own callback, handle 1), with stale callback 0 still pending. -/
def mmQ5 : MemoryMatch.QState :=
  MemoryMatch.q_flip_card 1 (MemoryMatch.q_flip_card 0 mmQ3)

/-! ## Facts about the sort order -/

theorem scoreGE_trans (a b c : PlayerScore) (hab : scoreGE a b = true)
    (hbc : scoreGE b c = true) : scoreGE a c = true := by
  simp only [scoreGE, scoreKeyLE, Bool.or_eq_true, Bool.and_eq_true,
    decide_eq_true_eq, beq_iff_eq] at *
  omega

theorem scoreGE_total (a b : PlayerScore) : (scoreGE a b || scoreGE b a) = true := by
  simp only [scoreGE, scoreKeyLE, Bool.or_eq_true, Bool.and_eq_true,
    decide_eq_true_eq, beq_iff_eq]
  omega

theorem entriesSorted_sortScores (l : List PlayerScore) :
    entriesSorted (sortScores l) :=
  List.sorted_mergeSort scoreGE_trans scoreGE_total l

theorem entriesSorted_take (l : List PlayerScore) (n : Nat)
    (h : entriesSorted l) : entriesSorted (l.take n) :=
  List.Pairwise.sublist (List.take_sublist n l) h

theorem initialScores_inv : ScoresInv initialScores := by decide

theorem add_score_inv (s : Scores) (h : ScoresInv s) (g n : String)
    (sc lv : Int) (ts : String) : ScoresInv (add_score s g n sc lv ts).scores := by
  unfold add_score
  by_cases hm : scoresMem s g
  · simp only [hm, if_true]
    intro p hp
    simp only [scoresSet, List.mem_map] at hp
    obtain ⟨q, hq, hpq⟩ := hp
    by_cases hqg : (q.1 == g) = true
    · rw [if_pos hqg] at hpq
      subst hpq
      refine ⟨entriesSorted_take _ _ (entriesSorted_sortScores _), ?_⟩
      simp [List.length_take]
    · rw [if_neg hqg] at hpq
      subst hpq
      exact h q hq
  · simp only [Bool.not_eq_true] at hm
    simp only [hm, Bool.false_eq_true, if_false]
    exact h

/-! ## The claims about the leaderboard store -/

/-- C1: starting from a fresh store, after every sequence of `add_score`
calls (hence after each individual call) every game's stored entry list is
sorted by `(score desc, level desc)` and holds at most 10 entries. -/
theorem claim_C1 (calls : List RecordCall) : ScoresInv (applyCalls calls) := by
  suffices h : ∀ (cs : List RecordCall) (st : Scores), ScoresInv st →
      ScoresInv (cs.foldl
        (fun st c => (add_score st c.game c.name c.score c.level c.now).scores) st) by
    exact h calls initialScores initialScores_inv
  intro cs
  induction cs with
  | nil => intro st hst; exact hst
  | cons c cs ih =>
      intro st hst
      exact ih _ (add_score_inv st hst c.game c.name c.score c.level c.now)

/-- C1 witness: the invariant holds concretely after one recorded score. -/
theorem claim_C1_witness : ScoresInv (applyCalls [callW]) := claim_C1 [callW]

/-- C7: initializing the store when the persisted file is missing,
unreadable or corrupt terminates normally (the embedded initializer is
total) and maps each of the three known game titles to an empty list. -/
theorem claim_C7 (f : ScoresFile) (h : ∀ d, f ≠ ScoresFile.valid d) :
    scoresFind (scoreboard_init f) "Memory Match" = some [] ∧
    scoresFind (scoreboard_init f) "Number Rush" = some [] ∧
    scoresFind (scoreboard_init f) "Color Blast" = some [] := by
  cases f with
  | valid d => exact absurd rfl (h d)
  | missing => exact ⟨rfl, rfl, rfl⟩
  | unreadable => exact ⟨rfl, rfl, rfl⟩
  | corrupt => exact ⟨rfl, rfl, rfl⟩

/-- C7 witness: initialization over a corrupt file. -/
theorem claim_C7_witness :
    scoresFind (scoreboard_init ScoresFile.corrupt) "Memory Match" = some [] ∧
    scoresFind (scoreboard_init ScoresFile.corrupt) "Number Rush" = some [] ∧
    scoresFind (scoreboard_init ScoresFile.corrupt) "Color Blast" = some [] :=
  claim_C7 ScoresFile.corrupt (fun _ h => nomatch h)

/-- C8: for every store satisfying the sortedness invariant and every
`limit ≥ 0`, `get_top_scores` returns the first `min limit length` stored
entries of that game (hence highest first: the returned list is itself
sorted descending), the empty list when the game is unknown, and — being a
pure function of the store — cannot mutate it, so repeated calls agree. -/
theorem claim_C8 (s : Scores) (hs : ScoresInv s) (game : String) (limit : Int)
    (hl : 0 ≤ limit) :
    get_top_scores s game limit = ((scoresFind s game).getD []).take limit.toNat ∧
    (get_top_scores s game limit).length
      = min limit.toNat ((scoresFind s game).getD []).length ∧
    (scoresFind s game = none → get_top_scores s game limit = []) ∧
    entriesSorted (get_top_scores s game limit) := by
  have h1 : get_top_scores s game limit
      = ((scoresFind s game).getD []).take limit.toNat := by
    unfold get_top_scores pySlice
    rw [if_pos hl]
  refine ⟨h1, ?_, ?_, ?_⟩
  · rw [h1, List.length_take]
  · intro hnone
    rw [h1, hnone]
    simp
  · rw [h1]
    refine entriesSorted_take _ _ ?_
    cases hf : scoresFind s game with
    | none => exact List.Pairwise.nil
    | some l =>
        obtain ⟨p, hmem, hp2⟩ :
            ∃ p, List.find? (fun p => p.1 == game) s = some p ∧ p.2 = l := by
          unfold scoresFind at hf
          cases hfind : List.find? (fun p => p.1 == game) s with
          | none => rw [hfind] at hf; cases hf
          | some p =>
              rw [hfind] at hf
              exact ⟨p, rfl, by injection hf⟩
        have hinv := hs p (List.mem_of_find?_eq_some hmem)
        simpa [hp2] using hinv.1

/-- C8 witness: the claim instantiated at a concrete sorted store and
`limit = 2`. -/
theorem claim_C8_witness :
    get_top_scores storeW "Number Rush" 2
      = ((scoresFind storeW "Number Rush").getD []).take (2 : Int).toNat ∧
    entriesSorted (get_top_scores storeW "Number Rush" 2) :=
  ⟨(claim_C8 storeW (by decide) "Number Rush" 2 (by decide)).1,
   (claim_C8 storeW (by decide) "Number Rush" 2 (by decide)).2.2.2⟩

/-- C10: `add_score` with an unknown game title returns `False` and leaves
the in-memory mapping untouched and the persisted file unwritten; with a
known game title it returns `True`. -/
theorem claim_C10 (s : Scores) (g n : String) (sc lv : Int) (ts : String) :
    (scoresMem s g = false → add_score s g n sc lv ts = ⟨s, false, none⟩) ∧
    (scoresMem s g = true → (add_score s g n sc lv ts).ok = true) := by
  constructor
  · intro hm
    unfold add_score
    rw [hm]
    rfl
  · intro hm
    unfold add_score
    rw [hm]
    rfl

/-- C10 witness: a store that knows no game called `"Snake"` rejects it
without any change or write, while `"Number Rush"` is accepted. -/
theorem claim_C10_witness :
    (scoresMem initialScores "Snake" = false ∧
      add_score initialScores "Snake" "Ada" 5 1 "t"
        = ⟨initialScores, false, none⟩) ∧
    (scoresMem initialScores "Number Rush" = true ∧
      (add_score initialScores "Number Rush" "Ada" 5 1 "t").ok = true) :=
  ⟨⟨rfl, (claim_C10 initialScores "Snake" "Ada" 5 1 "t").1 rfl⟩,
   ⟨rfl, (claim_C10 initialScores "Number Rush" "Ada" 5 1 "t").2 rfl⟩⟩

/-! ## The claims about the game engines -/

/-- C2: when an ordered-click round completes with positive elapsed time
`now - t` at level `L`, the acting player's recorded score is
`⌊10000 / (now - t)⌋ * L` (Python's `int()` of the positive quotient is its
floor); the witness below instantiates `L = 3`, elapsed `= 5.0`, score
`6000`. -/
theorem claim_C2 (s : NumberRush.State) (now t : ℚ)
    (r : NumberRush.State × List ScoreRec × Bool) (p : NumberRush.PlayerData)
    (ht : s.start_time = some t) (he : 0 < now - t)
    (hp : s.players[s.current_player]? = some p)
    (h : NumberRush.round_complete now s = some r) :
    (r.1.players.getD s.current_player nrDummy).score
      = ⌊(10000 : ℚ) / (now - t)⌋ * (s.current_level : Int) := by
  have hlt : s.current_player < s.players.length := (List.getElem?_eq_some.mp hp).1
  have hne : now - t ≠ 0 := he.ne'
  simp only [NumberRush.round_complete, NumberRush.end_game, ht, hp, hne,
    ite_false, if_false] at h
  have hscore : NumberRush.pyInt (10000 / (now - t))
      = ⌊(10000 : ℚ) / (now - t)⌋ := by
    unfold NumberRush.pyInt
    rw [if_pos (by positivity)]
  split at h <;>
  · injection h with h
    subst h
    simp only [List.getD_eq_getElem?_getD, List.getElem?_set_self hlt,
      Option.getD_some, hscore]

/-- C2 witness: the single-player level-3 round of `nrW2`, finished after
exactly 5.0 seconds, records a score of `⌊10000 / 5⌋ * 3 = 6000`. -/
theorem claim_C2_witness :
    ∃ r, NumberRush.round_complete 5 nrW2 = some r ∧
      (r.1.players.getD nrW2.current_player nrDummy).score = 6000 := by
  cases h : NumberRush.round_complete 5 nrW2 with
  | none =>
      exfalso
      simp [NumberRush.round_complete, NumberRush.end_game, NumberRush.records,
        nrW2] at h
  | some r =>
      refine ⟨r, rfl, ?_⟩
      have hmain := claim_C2 nrW2 5 0 r ⟨"P", 0, 0, false⟩ rfl (by norm_num) rfl h
      rw [hmain]
      norm_num [nrW2]

/-- C3: in the matching variant, a successful pair match awards the acting
player exactly `10 * level * (1 + streak / 3)` points where `streak` counts
the consecutive matches including this one (the code increments before
computing the bonus), and a mismatch resets the acting player's streak to
zero; the witness below instantiates level 2, fourth consecutive match,
awarding 40. -/
theorem claim_C3 (s : MemoryMatch.State) (i j : Nat)
    (ci cj : MemoryMatch.CardData) (p : MemoryMatch.PlayerData)
    (hf : s.flipped = [i, j])
    (hci : s.cards[i]? = some ci) (hcj : s.cards[j]? = some cj)
    (hp : s.players[s.current_player]? = some p) :
    (ci.symbol = cj.symbol →
      ∃ s2, MemoryMatch.check_match s = some s2 ∧
        s2.players.getD s.current_player mmDummy
          = { p with
              «matches» := p.«matches» + 1, streak := p.streak + 1,
              score := p.score
                + ((10 * s.current_level * (1 + (p.streak + 1) / 3) : Nat) : Int) }) ∧
    (ci.symbol ≠ cj.symbol →
      ∃ s2, MemoryMatch.check_match s = some s2 ∧
        (s2.players.getD s.current_player mmDummy).streak = 0) := by
  have hplt : s.current_player < s.players.length := (List.getElem?_eq_some.mp hp).1
  constructor
  · intro hsym
    have hb : (ci.symbol == cj.symbol) = true := beq_iff_eq.mpr hsym
    have heq : MemoryMatch.check_match s = some
        { s with
          cards := (s.cards.set i { ci with matched := true }).set j
            { cj with matched := true },
          matched := s.matched ++ [i, j],
          players := s.players.set s.current_player
            { p with
              «matches» := p.«matches» + 1, streak := p.streak + 1,
              score := p.score
                + ((10 * s.current_level * (1 + (p.streak + 1) / 3) : Nat) : Int) },
          flipped := [] } := by
      unfold MemoryMatch.check_match
      rw [hf]
      simp only [hci, hcj, hp, hb, eq_self_iff_true, if_true, ite_true]
    refine ⟨_, heq, ?_⟩
    simp only [List.getD_eq_getElem?_getD, List.getElem?_set_self hplt,
      Option.getD_some]
  · intro hsym
    have hb : (ci.symbol == cj.symbol) = false := beq_eq_false_iff_ne.mpr hsym
    have heq : MemoryMatch.check_match s = some
        { s with
          players := s.players.set s.current_player { p with streak := 0 },
          current_player :=
            if 1 < s.num_players then (s.current_player + 1) % s.num_players
            else s.current_player,
          flipped := [] } := by
      unfold MemoryMatch.check_match
      rw [hf]
      simp only [hci, hcj, hp, hb, Bool.false_eq_true, if_false, ite_false]
    refine ⟨_, heq, ?_⟩
    simp only [List.getD_eq_getElem?_getD, List.getElem?_set_self hplt,
      Option.getD_some]

/-- C3 witness: at level 2, player `A` on a previous streak of 3 matches a
pair: the fourth consecutive match awards `10*2*(1 + 4/3) = 40` points. -/
theorem claim_C3_witness :
    ∃ s2, MemoryMatch.check_match mmW3 = some s2 ∧
      s2.players.getD mmW3.current_player mmDummy = ⟨"A", 100 + 40, 6, 4⟩ := by
  obtain ⟨s2, h1, h2⟩ :=
    (claim_C3 mmW3 0 1 ⟨"X", true, false⟩ ⟨"X", true, false⟩ ⟨"A", 100, 5, 3⟩
      rfl rfl rfl rfl).1 rfl
  refine ⟨s2, h1, ?_⟩
  rw [h2]
  decide

/-- C4 counterexample: in the two-player Memory Match state `mmC4` the
acting player is index 1; the mismatch passes the turn via
`(current_player + 1) % num_players`, which wraps `current_player` back to
0 — the index decreases, refuting "only moves forward, never wraps". -/
theorem claim_C4_counterexample :
    mmC4.current_player = 1 ∧
    (MemoryMatch.check_match mmC4).map MemoryMatch.State.current_player
      = some 0 := by decide

/-- C4 (amended): in Number Rush and Color Blast the turn index only moves
forward — `round_complete`/`round_over` increment it by exactly one — and
the session is over exactly when the incremented index reaches
`num_players`; in Memory Match, however, a mismatch hands the turn to
`(current_player + 1) % num_players`, wrapping from the last player back to
the first whenever `num_players > 1`. -/
theorem claim_C4_amended :
    (∀ (now : ℚ) (s : NumberRush.State) (r : NumberRush.State × List ScoreRec × Bool),
        NumberRush.round_complete now s = some r →
          r.1.current_player = s.current_player + 1 ∧
          (r.2.2 = true ↔ s.num_players ≤ s.current_player + 1)) ∧
    (∀ (s : ColorBlast.State), s.current_player < s.players.length →
        (ColorBlast.round_over s).1.current_player = s.current_player + 1 ∧
        ((ColorBlast.round_over s).2.2 = true ↔ s.num_players ≤ s.current_player + 1)) ∧
    (∀ (s s2 : MemoryMatch.State) (i j : Nat) (ci cj : MemoryMatch.CardData)
        (p : MemoryMatch.PlayerData),
        s.flipped = [i, j] → s.cards[i]? = some ci → s.cards[j]? = some cj →
        s.players[s.current_player]? = some p → ci.symbol ≠ cj.symbol →
        MemoryMatch.check_match s = some s2 →
          s2.current_player =
            if 1 < s.num_players then (s.current_player + 1) % s.num_players
            else s.current_player) := by
  refine ⟨?_, ?_, ?_⟩
  · intro now s r h
    unfold NumberRush.round_complete NumberRush.end_game at h
    cases hst : s.start_time with
    | none =>
        simp only [hst] at h
        split at h
        next hc =>
          injection h with h
          subst h
          exact ⟨rfl, by simp only [Bool.false_eq_true, false_iff]; omega⟩
        next hc =>
          injection h with h
          subst h
          exact ⟨rfl, by simp only [true_iff]; omega⟩
    | some t =>
        simp only [hst] at h
        by_cases hz : now - t = 0
        · rw [if_pos hz] at h
          cases h
        · rw [if_neg hz] at h
          cases hpl : s.players[s.current_player]? with
          | none =>
              simp only [hpl] at h
              exact Option.noConfusion h
          | some p =>
              simp only [hpl] at h
              split at h
              next hc =>
                injection h with h
                subst h
                exact ⟨rfl, by simp only [Bool.false_eq_true, false_iff]; omega⟩
              next hc =>
                injection h with h
                subst h
                exact ⟨rfl, by simp only [true_iff]; omega⟩
  · intro s hlen
    simp only [ColorBlast.round_over, ColorBlast.end_game]
    rw [if_neg (not_le.mpr hlen)]
    split
    next hc =>
      exact ⟨rfl, by simp only [Bool.false_eq_true, false_iff]; omega⟩
    next hc =>
      exact ⟨rfl, by simp only [true_iff]; omega⟩
  · intro s s2 i j ci cj p hf hci hcj hp hne h
    have hb : (ci.symbol == cj.symbol) = false := beq_eq_false_iff_ne.mpr hne
    unfold MemoryMatch.check_match at h
    rw [hf] at h
    simp only [hci, hcj, hp, hb, Bool.false_eq_true, if_false, ite_false] at h
    injection h with h
    subst h
    rfl

/-- C4 witness: a `round_complete` of the two-player state `nrW4` moves the
turn index from 0 to 1 and does not end the session. -/
theorem claim_C4_witness :
    ∃ r, NumberRush.round_complete 0 nrW4 = some r ∧
      r.1.current_player = nrW4.current_player + 1 ∧ r.2.2 = false := by
  cases h : NumberRush.round_complete 0 nrW4 with
  | none => exact absurd h (by decide)
  | some r =>
      have hmain := claim_C4_amended.1 0 nrW4 r h
      refine ⟨r, rfl, hmain.1, ?_⟩
      cases hb : r.2.2 with
      | false => rfl
      | true => exact absurd (hmain.2.mp hb) (by decide)

/-- C5 counterexample: Memory Match finalization (`save_results`) emits a
leaderboard entry for a one-player roster whose only player matched zero
pairs — its `PlayerData` has no `completed` flag at all, so no player of
this variant ever has `completed == true`, yet one entry (not zero) is
emitted. -/
theorem claim_C5_counterexample :
    (∀ p ∈ mmRosterC5, p.«matches» = 0 ∧ p.score = 0) ∧
    MemoryMatch.save_results_records mmRosterC5 1
      = [⟨"Memory Match", "Bob", 0, 1⟩] := by decide

/-- C5 (amended): Number Rush and Color Blast finalization emit exactly one
leaderboard entry per player whose `completed` flag is true and none for
any other player (so at most `n` entries, possibly zero); Memory Match
finalization emits exactly one entry for every rostered player
unconditionally (its player records carry no `completed` flag), so exactly
`n` entries. -/
theorem claim_C5_amended :
    (∀ (ps : List NumberRush.PlayerData) (lvl : Nat),
        NumberRush.records ps lvl
          = (ps.filter (fun p => p.completed)).map
              (fun p => ⟨"Number Rush", p.name, p.score, (lvl : Int)⟩)) ∧
    (∀ (ps : List ColorBlast.PlayerData) (lvl : Nat),
        ColorBlast.records ps lvl
          = (ps.filter (fun p => p.completed)).map
              (fun p => ⟨"Color Blast", p.name, p.score, (lvl : Int)⟩)) ∧
    (∀ (ps : List MemoryMatch.PlayerData) (lvl : Nat),
        MemoryMatch.save_results_records ps lvl
          = ps.map (fun p => ⟨"Memory Match", p.name, p.score, (lvl : Int)⟩)) := by
  refine ⟨?_, ?_, ?_⟩
  · intro ps lvl
    induction ps with
    | nil => rfl
    | cons p ps ih =>
        cases hc : p.completed with
        | false => simp [NumberRush.records, List.filter_cons, hc, ih]
        | true => simp [NumberRush.records, List.filter_cons, hc, ih]
  · intro ps lvl
    induction ps with
    | nil => rfl
    | cons p ps ih =>
        cases hc : p.completed with
        | false => simp [ColorBlast.records, List.filter_cons, hc, ih]
        | true => simp [ColorBlast.records, List.filter_cons, hc, ih]
  · intro ps lvl
    induction ps with
    | nil => rfl
    | cons p ps ih => simp [MemoryMatch.save_results_records, ih]

/-- C5 witness: a Number Rush session with one completed and one
non-completed player emits exactly the completed player's entry. -/
theorem claim_C5_witness :
    NumberRush.records [⟨"P1", 6000, 5, true⟩, ⟨"P2", 0, 0, false⟩] 3
      = [⟨"Number Rush", "P1", 6000, 3⟩] := by
  rw [claim_C5_amended.1]
  rfl

/-- C6: while a round is inactive, submitting any number click (ordered
variant) or any answer-slot index (discrimination variant) is a silent
no-op: the guarded early return leaves every field of the round and session
state unchanged and emits nothing. -/
theorem claim_C6 (s : NumberRush.State) (s2 : ColorBlast.State)
    (h1 : s.game_active = false) (h2 : s2.game_active = false) :
    (∀ (now : ℚ) (num : Nat),
        NumberRush.number_clicked now num s = some (s, [], false)) ∧
    (∀ idx : Nat, ColorBlast.check_answer idx s2 = s2) := by
  constructor
  · intro now num
    unfold NumberRush.number_clicked
    rw [if_pos h1]
  · intro idx
    unfold ColorBlast.check_answer
    rw [if_pos h2]

/-- C6 witness: concrete inactive rounds ignore a number click and an
out-of-range answer slot. -/
theorem claim_C6_witness :
    NumberRush.number_clicked 0 1 nrW6 = some (nrW6, [], false) ∧
    ColorBlast.check_answer 99 cbW6 = cbW6 :=
  ⟨(claim_C6 nrW6 cbW6 rfl rfl).1 0 1, (claim_C6 nrW6 cbW6 rfl rfl).2 99⟩

/-- Number Rush: a timer callback that fires while the round is inactive
leaves the state untouched (`update_timer` is guarded by `game_active`). -/
theorem update_timer_noop_inactive (s : NumberRush.State) (fresh : Nat)
    (h : s.game_active = false) : NumberRush.update_timer fresh s = s := by
  unfold NumberRush.update_timer
  rw [h]
  rfl

/-- Color Blast: a countdown callback that fires while the round is
inactive leaves the state untouched and triggers nothing. -/
theorem countdown_noop_inactive (s : ColorBlast.State) (fresh : Nat)
    (h : s.game_active = false) : ColorBlast.countdown fresh s = (s, [], false) := by
  unfold ColorBlast.countdown
  rw [if_pos h]

/-- Memory Match: a `check_match` callback firing when two cards are not
currently flipped (in particular right after a level restart cleared
`self.flipped`) leaves the state untouched. -/
theorem check_match_noop_of_flipped_ne_two (s : MemoryMatch.State)
    (h : s.flipped.length ≠ 2) : MemoryMatch.check_match s = some s := by
  unfold MemoryMatch.check_match
  cases hf : s.flipped with
  | nil => rfl
  | cons a l =>
      cases l with
      | nil => rfl
      | cons b l2 =>
          cases l2 with
          | nil => rw [hf] at h; exact absurd rfl h
          | cons c l3 => rfl

/-- C9 (code-bug evidence): `start_level` — wired directly to the Restart
button — does not cancel a pending `check_match` callback (only
`back_to_menu` and `destroy` do).  In the trace `mmQ0 → … → mmQ5`, callback
handle 0 is scheduled in round one (`mmQ2`), survives the restart
(`mmQ3`, where the cleared `flipped` list would still make it harmless),
and after two cards of the new round are flipped it fires as a stale
callback and mutates the game state: the player jumps from 0 points and no
matches to 10 points and one match.  The claimed "guaranteed no-op after
teardown" fails. -/
theorem claim_C9 :
    mmQ2.pending = [0] ∧
    mmQ3.pending = [0] ∧ mmQ3.game.flipped = [] ∧
    (MemoryMatch.q_fire 0 mmQ3).map (fun q => q.game) = some mmQ3.game ∧
    mmQ5.game.players = [⟨"Alice", 0, 0, 0⟩] ∧
    (MemoryMatch.q_fire 0 mmQ5).map (fun q => q.game.players)
      = some [⟨"Alice", 10, 1, 1⟩] := by decide
